import Mathlib

/-!
Verification development for the lineup photo-duplicate catalog engine.

The definitions below are a shallow embedding of the catalog core:

* `src/data_manager.py`        — the basic transient (pandas) backend `DataManager`;
* `src/data_manager_enhanced.py` — the enhanced `DataManager` (legacy pandas branch
  and its database-backed search / summaries);
* `src/database_manager.py`    — the durable SQLite backend `DatabaseManager`;
* `src/migration_utility.py`   — the `MigrationUtility` CLI bridge.

Conventions of the embedding:

* A CSV cell is modelled as `Option` of its payload; `none` stands for a
  missing cell (pandas `NaN`).  Numeric cells that matter to the claims
  (`QualityScore`) are modelled as `Option Rat` (pandas `to_numeric` with
  `errors=coerce` is already applied by `read_csv` for numeric columns).
* The filesystem is an environment `fs : String → Bool` giving the result of
  `Path(p).exists() and Path(p).is_file()` for a path string `p`.
* The optional `Algorithm` column is modelled as absent from every input, so
  every stored `algorithm` is NULL and the SQL `GROUP BY group_id, algorithm`
  of `_update_group_summaries` coincides with grouping by `group_id` alone.
* pandas `sort_values` on two keys goes through `numpy.lexsort`, a stable
  sort; a stable sort w.r.t. a total preorder has a unique result, so it is
  modelled by `List.insertionSort` (which is stable) with the corresponding
  total preorder.
-/

namespace Lineup

/-- One raw row of the tabular report, straight out of `pd.read_csv`.
A field is `none` when the cell is `NaN` (or the whole column is absent:
the `Csv.cols` header records which columns exist). -/
structure Row where
  groupId : Option String := none
  master : Option String := none
  file : Option String := none
  path : Option String := none
  name : Option String := none
  quality : Option Rat := none
  matchReasons : Option String := none
  cameraMake : Option String := none
  cameraModel : Option String := none
  iptcKeywords : Option String := none
  iptcCaption : Option String := none
  xmpKeywords : Option String := none
  xmpTitle : Option String := none
deriving DecidableEq

/-- A parsed CSV file: the header (column names) plus the data rows. -/
structure Csv where
  cols : List String
  rows : List Row
deriving DecidableEq

/-- A processed record of the transient (pandas) backends: one row of
`self.df` after `_process_data` added `FileExists` and `IsMaster`. -/
structure Rec where
  groupId : String
  isMaster : Bool
  file : String
  path : String
  quality : Option Rat
  matchReasons : Option String
  fileExists : Bool
deriving DecidableEq

/-- One row of the durable backend's `images` table (the columns the claims
mention; remaining columns are inert `TEXT`/numeric data). -/
structure DbRow where
  groupId : String
  isMaster : Bool
  file : String
  name : Option String
  path : String
  quality : Option Rat
  cameraMake : Option String
  cameraModel : Option String
  iptcKeywords : Option String
  iptcCaption : Option String
  xmpKeywords : Option String
  xmpTitle : Option String
  matchReasons : Option String
  fileExists : Bool
deriving DecidableEq

/-- ASCII lower-casing of one character (the flag values and the `LIKE`
case folding in this code are ASCII). -/
def lowCh (ch : Char) : Char :=
  if 'A' ≤ ch ∧ ch ≤ 'Z' then Char.ofNat (ch.toNat + 32) else ch

/-- ASCII lower-casing of a string, `str.lower()` for the ASCII inputs the
master flags take. -/
def strLower (s : String) : String := ⟨s.data.map lowCh⟩

/-- Lexicographic order on character lists, by code point — the string
order Python's `sorted` and comparison operators use. -/
def charListLe : List Char → List Char → Bool
  | [], _ => true
  | _ :: _, [] => false
  | a :: as, b :: bs => if a < b then true else if b < a then false else charListLe as bs

/-- Python string `<=` (code-point lexicographic). -/
def strLeB (s1 s2 : String) : Bool := charListLe s1.data s2.data

/-- `Master` coercion, `lambda x: str(x).lower() in ['true','1','yes','y']`.
For a `NaN` cell `str(x)` is `"nan"`, which is not in the list, so `none`
maps to `false` — the same result as `database_manager`'s explicit
`if pd.notna(x) else False` guard. -/
def coerceMaster : Option String → Bool
  | none => false
  | some s =>
    strLower s == "true" || strLower s == "1" || strLower s == "yes" || strLower s == "y"

/-- `data_manager.DataManager._check_file_exists` on a path string: no guard,
`Path(file_path).exists() and is_file()`. -/
def dmCheckS (fs : String → Bool) (p : String) : Bool := fs p

/-- `data_manager_enhanced.DataManager._check_file_exists` on a path string:
`if not file_path or pd.isna(file_path): return False` makes the empty
string `false` before any stat. -/
def dmlCheckS (fs : String → Bool) (p : String) : Bool :=
  if p = "" then false else fs p

/-- `database_manager.DatabaseManager._check_file_exists` on an optional
path cell: `NaN`/`None` and the empty string are `false`; everything is
wrapped in `try/except` returning `false`. -/
def dbCheckO (fs : String → Bool) : Option String → Bool
  | none => false
  | some p => if p = "" then false else fs p

/-- `_process_data` / `_process_data_legacy`: drop rows whose `GroupID`,
`File` or `Path` cell is `NaN`, coerce `GroupID` to string (cells are already
modelled as strings), compute `FileExists` with the given checker and
`IsMaster` with the boolean coercion. -/
def processRows (check : String → Bool) (rows : List Row) : List Rec :=
  rows.filterMap fun r =>
    match r.groupId, r.file, r.path with
    | some g, some f, some p =>
      some { groupId := g, isMaster := coerceMaster r.master, file := f, path := p,
             quality := r.quality, matchReasons := r.matchReasons, fileExists := check p }
    | _, _, _ => none

/-- `self.df[self.df['GroupID'] == group_id]`. -/
def groupRows (recs : List Rec) (gid : String) : List Rec :=
  recs.filter fun r => decide (r.groupId = gid)

/-- `group_df['IsMaster'].sum()`. -/
def masterCount (l : List Rec) : Nat :=
  (l.filter fun r => r.isMaster).length

/-- Python string `<=` as a relation, for sorting. -/
def strLe (a b : String) : Prop := strLeB a b = true

instance : DecidableRel strLe := fun a b => by unfold strLe; infer_instance

/-- Python `sorted` on strings (code-point lexicographic, stable). -/
def sortStr (l : List String) : List String :=
  l.insertionSort strLe

/-- `sorted(self.df['GroupID'].unique())`: the distinct group ids, sorted. -/
def gidsOf (recs : List Rec) : List String :=
  sortStr ((recs.map fun r => r.groupId).dedup)

/-- Minimum of `group_df['Path'].str.len()` over a group. -/
def minPathLen : List Rec → Nat
  | [] => 0
  | [r] => r.path.length
  | r :: s :: rs => min r.path.length (minPathLen (s :: rs))

/-- `group_df['Path'].str.len().idxmin()`: the position (within the group)
of the first row attaining the minimal path length. -/
def selMinPath (g : List Rec) : Nat :=
  g.findIdx fun r => decide (r.path.length = minPathLen g)

/-- `x ≤ y` on quality cells, with `NaN` (`none`) below every value. -/
def qleB : Option Rat → Option Rat → Bool
  | none, _ => true
  | some _, none => false
  | some a, some b => decide (a ≤ b)

/-- Maximum of `group_df['QualityScore']` with `skipna` semantics: `NaN`s are
ignored; the result is `none` exactly when every cell is `NaN` (the case in
which pandas `idxmax` raises). -/
def maxQuality : List Rec → Option Rat
  | [] => none
  | [r] => r.quality
  | r :: s :: rs =>
    if qleB r.quality (maxQuality (s :: rs)) then maxQuality (s :: rs) else r.quality

/-- `group_df['QualityScore'].idxmax()`: position of the first row whose
quality equals the (skipna) maximum. -/
def selQuality (g : List Rec) : Nat :=
  g.findIdx fun r => decide (r.quality = maxQuality g)

/-- `group_df.loc[idx, 'IsMaster'] = True` for a positional index. -/
def setMasterAt : List Rec → Nat → List Rec
  | [], _ => []
  | r :: rs, 0 => { r with isMaster := true } :: rs
  | r :: rs, n + 1 => r :: setMasterAt rs n

/-- Sort rank of the `IsMaster` key under `ascending=False`: masters first. -/
def mrank (r : Rec) : Nat := if r.isMaster then 0 else 1

/-- Lexicographic boolean comparator: primary `Nat` rank, then a tiebreak. -/
def lexLeB (r1 r2 : Nat) (t : Bool) : Bool :=
  decide (r1 < r2) || (r1 == r2 && t)

/-- `sort_values(['IsMaster','File'], ascending=[False,True])` as a total
preorder (used by `data_manager._create_groups` and the no-quality branch of
`_create_groups_legacy`). -/
def dmLe (a b : Rec) : Prop :=
  lexLeB (mrank a) (mrank b) (strLeB a.file b.file) = true

instance : DecidableRel dmLe := fun a b => by unfold dmLe; infer_instance

/-- `sort_values(['IsMaster','QualityScore'], ascending=[False,False])` as a
total preorder: masters first, then quality descending with `NaN` last. -/
def dmlLe (a b : Rec) : Prop :=
  lexLeB (mrank a) (mrank b) (qleB b.quality a.quality) = true

instance : DecidableRel dmlLe := fun a b => by unfold dmlLe; infer_instance

/-- Rank of `is_master DESC` for the SQL `ORDER BY` of `get_group_images`. -/
def mrankDb (r : DbRow) : Nat := if r.isMaster then 0 else 1

/-- `ORDER BY is_master DESC, quality_score DESC` (SQLite puts NULL last
under `DESC`). -/
def dbLe (a b : DbRow) : Prop :=
  lexLeB (mrankDb a) (mrankDb b) (qleB b.quality a.quality) = true

instance : DecidableRel dbLe := fun a b => by unfold dbLe; infer_instance

/-- `data_manager.DataManager._create_groups`, one group: auto-assign a
master by shortest path when the group has none, then sort masters-first /
file-name-ascending. -/
def dmGroupOf (recs : List Rec) (gid : String) : List Rec :=
  (if masterCount (groupRows recs gid) = 0
   then setMasterAt (groupRows recs gid) (selMinPath (groupRows recs gid))
   else groupRows recs gid).insertionSort dmLe

/-- The `self.groups` dict built by `data_manager._create_groups`, as an
association list keyed by the sorted group ids. -/
def dmGroups (recs : List Rec) : List (String × List Rec) :=
  (gidsOf recs).map fun gid => (gid, dmGroupOf recs gid)

/-- `_create_groups_legacy`'s selection index: `QualityScore.idxmax()` when
the `QualityScore` column exists, else the shortest-path index. -/
def dmlSelIdx (hasQ : Bool) (g : List Rec) : Nat :=
  if hasQ then selQuality g else selMinPath g

/-- `data_manager_enhanced.DataManager._create_groups_legacy`, one group:
auto-assign by quality (column present) or shortest path, then sort by
quality descending (column present) or file name ascending. -/
def dmlGroupOf (hasQ : Bool) (recs : List Rec) (gid : String) : List Rec :=
  if hasQ
  then (if masterCount (groupRows recs gid) = 0
        then setMasterAt (groupRows recs gid) (dmlSelIdx hasQ (groupRows recs gid))
        else groupRows recs gid).insertionSort dmlLe
  else (if masterCount (groupRows recs gid) = 0
        then setMasterAt (groupRows recs gid) (dmlSelIdx hasQ (groupRows recs gid))
        else groupRows recs gid).insertionSort dmLe

/-- The loop of `_create_groups_legacy` raises (`Series.idxmax` on an
all-`NaN` column) iff some group has no flagged master while the
`QualityScore` column exists but none of the group's members has a score.
This flag is `true` when the whole load succeeds. -/
def dmlLoadOkB (hasQ : Bool) (recs : List Rec) : Bool :=
  (gidsOf recs).all fun gid =>
    !(masterCount (groupRows recs gid) == 0) || !hasQ ||
      (maxQuality (groupRows recs gid)).isSome

/-- Number of same-group rows strictly before dataframe position `i`:
converts the group-local designation index into the main-dataframe update
`self.df.loc[best_idx, 'IsMaster'] = True`. -/
def posInGroup (full : List Rec) (i : Nat) (gid : String) : Nat :=
  ((full.take i).filter fun r => decide (r.groupId = gid)).length

/-- The master-designation writes `_create_groups` / `_create_groups_legacy`
perform on the main dataframe `self.df`: row `i` becomes master iff its
group has no flagged master and `i` is the group's selected index. -/
def dfAfterAux (sel : List Rec → Nat) (full : List Rec) : Nat → List Rec → List Rec
  | _, [] => []
  | i, r :: rs =>
    (if masterCount (groupRows full r.groupId) = 0 ∧
        posInGroup full i r.groupId = sel (groupRows full r.groupId)
     then { r with isMaster := true } else r) :: dfAfterAux sel full (i + 1) rs

/-- `self.df` after `data_manager._create_groups` ran. -/
def dmDfAfter (recs : List Rec) : List Rec :=
  dfAfterAux selMinPath recs 0 recs

/-- `self.df` after `_create_groups_legacy` ran. -/
def dmlDfAfter (hasQ : Bool) (recs : List Rec) : List Rec :=
  dfAfterAux (dmlSelIdx hasQ) recs 0 recs

/-- `[col for col in required_columns if col not in self.df.columns]`. -/
def missingColumns (required cols : List String) : List String :=
  required.filter fun c => !(decide (c ∈ cols))

/-- `data_manager.load_csv`'s required columns — note the fifth entry. -/
def dmRequired : List String := ["GroupID", "Master", "File", "Path", "MatchReasons"]

/-- `_load_csv_legacy`'s required columns. -/
def dmlRequired : List String := ["GroupID", "Master", "File", "Path"]

/-- `DatabaseManager.import_csv_data`'s required columns. -/
def dbRequired : List String := ["GroupID", "Master", "File", "Path"]

/-- The value of `self.df` in the basic `DataManager`: either the raw frame
just assigned by `pd.read_csv` (before validation/processing) or the fully
processed frame. -/
inductive DfVal where
  | raw (c : Csv)
  | processed (recs : List Rec)
deriving DecidableEq

/-- Number of rows of `self.df`, `len(self.df)`. -/
def dfLen : DfVal → Nat
  | .raw c => c.rows.length
  | .processed recs => recs.length

/-- The mutable state of the basic `data_manager.DataManager`. -/
structure DmState where
  df : Option DfVal
  groups : List (String × List Rec)
  groupIds : List String
  missingFiles : List String
deriving DecidableEq

/-- `DataManager.__init__`. -/
def dmInit : DmState := { df := none, groups := [], groupIds := [], missingFiles := [] }

/-- Add paths to the `missing_files` set, keeping first-insertion order. -/
def addMissingAll (s : List String) (ps : List String) : List String :=
  ps.foldl (fun acc p => if p ∈ acc then acc else acc ++ [p]) s

/-- The paths `_check_file_exists` adds to `missing_files` in the basic
manager while `_process_data` maps it over the `Path` column. -/
def dmMissingRaw (recs : List Rec) : List String :=
  (recs.filter fun r => !r.fileExists).map fun r => r.path

/-- The paths the enhanced legacy checker adds: the `not file_path` guard
returns before the `missing_files.add` for empty paths. -/
def dmlMissingRaw (recs : List Rec) : List String :=
  (recs.filter fun r => !r.fileExists && !(decide (r.path = ""))).map fun r => r.path

/-- `data_manager.DataManager.load_csv`.  The raw frame is assigned to
`self.df` *before* the required-column validation, so a schema failure
(returning `false` here models the raised `ValueError`) leaves the state
with the new raw frame but the old groups.  `missing_files` is never
cleared by a load, so it accumulates across loads. -/
def dmLoadCsv (fs : String → Bool) (st : DmState) (c : Csv) : DmState × Bool :=
  let st1 : DmState := { st with df := some (DfVal.raw c) }
  if missingColumns dmRequired c.cols ≠ [] then (st1, false)
  else
    let recs := processRows (dmCheckS fs) c.rows
    ({ df := some (DfVal.processed (dmDfAfter recs)),
       groups := dmGroups recs,
       groupIds := gidsOf recs,
       missingFiles := addMissingAll st.missingFiles (dmMissingRaw recs) }, true)

/-- The dictionary returned by `get_overall_summary` on both pandas
backends. -/
structure DmSummary where
  total_groups : Nat
  total_images : Nat
  existing_images : Nat
  missing_images : Nat
  total_masters : Nat
deriving DecidableEq

/-- `data_manager.DataManager.get_overall_summary`; `none` models the `{}`
returned when `self.df is None` (and the `KeyError` a raw frame would
raise, which no successful load leaves behind). -/
def dmOverallSummary (st : DmState) : Option DmSummary :=
  match st.df with
  | some (DfVal.processed recs2) =>
    some { total_groups := st.groups.length,
           total_images := recs2.length,
           existing_images := (recs2.filter fun r => r.fileExists).length,
           missing_images := st.missingFiles.length,
           total_masters := masterCount recs2 }
  | _ => none

/-- Result of a successful `_load_csv_legacy` on a fresh enhanced manager:
the processed frame, the frame after `_create_groups_legacy` mutated it,
the groups dict and the `missing_files` set. -/
structure DmlOut where
  recs : List Rec
  df2 : List Rec
  groups : List (String × List Rec)
  missing : List String
deriving DecidableEq

/-- `data_manager_enhanced.DataManager._load_csv_legacy` on a fresh manager
(`use_database=False`): schema check on the four mandatory columns,
processing, then `_create_groups_legacy` (which raises on a zero-master
group whose `QualityScore` entries are all `NaN`). -/
def dmlLoadCsv (fs : String → Bool) (c : Csv) : Except String DmlOut :=
  if missingColumns dmlRequired c.cols ≠ [] then .error "Missing required columns"
  else
    let hasQ := decide ("QualityScore" ∈ c.cols)
    let recs := processRows (dmlCheckS fs) c.rows
    if dmlLoadOkB hasQ recs then
      .ok { recs := recs,
            df2 := dmlDfAfter hasQ recs,
            groups := (gidsOf recs).map fun gid => (gid, dmlGroupOf hasQ recs gid),
            missing := addMissingAll [] (dmlMissingRaw recs) }
    else .error "attempt to get argmax of an empty sequence"

/-- `get_overall_summary` of the enhanced manager's legacy branch. -/
def dmlOverallSummary (out : DmlOut) : DmSummary :=
  { total_groups := out.groups.length,
    total_images := out.df2.length,
    existing_images := (out.df2.filter fun r => r.fileExists).length,
    missing_images := out.missing.length,
    total_masters := masterCount out.df2 }

/-- An optional text column as stored by `_clean_dataframe` + insertion:
`fillna('')` when the column exists, SQL `NULL` when it is absent
(`row.get(...)` returns `None`). -/
def dbTextF (cols : List String) (cname : String) (v : Option String) : Option String :=
  if cname ∈ cols then some (v.getD "") else none

/-- `_clean_dataframe` + the `INSERT INTO images` tuple for one CSV row:
`GroupID.astype(str)` turns a `NaN` id into the string `"nan"`; no row is
dropped; `file_exists` is computed from the original `Path` cell before
the text `fillna`. -/
def dbRowOf (cols : List String) (fs : String → Bool) (r : Row) : DbRow :=
  { groupId := r.groupId.getD "nan",
    isMaster := coerceMaster r.master,
    file := r.file.getD "",
    name := dbTextF cols "Name" r.name,
    path := r.path.getD "",
    quality := if "QualityScore" ∈ cols then r.quality else none,
    cameraMake := dbTextF cols "CameraMake" r.cameraMake,
    cameraModel := dbTextF cols "CameraModel" r.cameraModel,
    iptcKeywords := dbTextF cols "IPTCKeywords" r.iptcKeywords,
    iptcCaption := dbTextF cols "IPTCCaption" r.iptcCaption,
    xmpKeywords := dbTextF cols "XMPKeywords" r.xmpKeywords,
    xmpTitle := dbTextF cols "XMPTitle" r.xmpTitle,
    matchReasons := dbTextF cols "MatchReasons" r.matchReasons,
    fileExists := dbCheckO fs r.path }

/-- `DatabaseManager.import_csv_data`: read + schema validation happen
before `_clear_database`, and on success the `images` table holds exactly
the new rows (the prior content was deleted). -/
def dbImportCsv (fs : String → Bool) (st : List DbRow) (c : Csv) : List DbRow × Bool :=
  if missingColumns dbRequired c.cols ≠ [] then (st, false)
  else (c.rows.map (dbRowOf c.cols fs), true)

/-- `SELECT * FROM images WHERE group_id = ?` in table order. -/
def dbGroupRows (imgs : List DbRow) (gid : String) : List DbRow :=
  imgs.filter fun r => decide (r.groupId = gid)

/-- The distinct `group_id` values of the `images` table. -/
def dbGids (imgs : List DbRow) : List String :=
  (imgs.map fun r => r.groupId).dedup

/-- One row of the durable backend's `groups` roll-up table. -/
structure GroupsRow where
  groupId : String
  total_images : Nat
  master_count : Nat
  existing_images : Nat
deriving DecidableEq

/-- `_update_group_summaries`: `GROUP BY group_id, algorithm` with `COUNT`,
`SUM(is_master)`, `SUM(file_exists)` (the `Algorithm` column is modelled as
absent, so the grouping key degenerates to `group_id`). -/
def dbGroupsTable (imgs : List DbRow) : List GroupsRow :=
  (dbGids imgs).map fun gid =>
    { groupId := gid,
      total_images := (dbGroupRows imgs gid).length,
      master_count := ((dbGroupRows imgs gid).filter fun r => r.isMaster).length,
      existing_images := ((dbGroupRows imgs gid).filter fun r => r.fileExists).length }

/-- The dictionary returned by `DatabaseManager.get_overall_summary`
(quality aggregates omitted; the summary also carries `avg/min/max`
quality keys that the pandas backend's dictionary does not have). -/
structure DbSummary where
  total_groups : Nat
  total_images : Nat
  missing_images : Nat
  existing_images : Nat
  master_images : Nat
deriving DecidableEq

/-- `DatabaseManager.get_overall_summary`: counts over `groups` and
`images`; `missing_images` counts *rows* with `NOT file_exists`, and
`existing_images` is `total_images - missing_images`. -/
def dbOverallSummary (imgs : List DbRow) : DbSummary :=
  { total_groups := (dbGroupsTable imgs).length,
    total_images := imgs.length,
    missing_images := (imgs.filter fun r => !r.fileExists).length,
    existing_images := imgs.length - (imgs.filter fun r => !r.fileExists).length,
    master_images := (imgs.filter fun r => r.isMaster).length }

/-- `DatabaseManager.get_group_images`:
`SELECT * FROM images WHERE group_id = ? ORDER BY is_master DESC, quality_score DESC`. -/
def dbGetGroupImages (imgs : List DbRow) (gid : String) : List DbRow :=
  (dbGroupRows imgs gid).insertionSort dbLe

/-- A string as a lower-cased character list (SQLite's `LIKE` folds ASCII
case). -/
def lowerA (s : String) : List Char := s.data.map lowCh

/-- Leading-match test for character lists. -/
def pfxB : List Char → List Char → Bool
  | [], _ => true
  | _ :: _, [] => false
  | a :: as, b :: bs => a == b && pfxB as bs

/-- Substring test for character lists (needle, haystack). -/
def subB (needle : List Char) : List Char → Bool
  | [] => pfxB needle []
  | c :: t => pfxB needle (c :: t) || subB needle t

/-- SQL `column LIKE '%query%'` on a nullable text column: `NULL` never
matches; otherwise case-insensitive substring containment. -/
def likeCI (v : Option String) (q : String) : Bool :=
  match v with
  | none => false
  | some s => subB (lowerA q) (lowerA s)

/-- `data_manager_enhanced.DataManager.search_images` with no `field`, on
the database backend: rows where any of the ten text columns `LIKE`-matches
the query, truncated to `limit`. -/
def dbSearchAll (imgs : List DbRow) (q : String) (limit : Nat) : List DbRow :=
  (imgs.filter fun r =>
    likeCI (some r.file) q || likeCI r.name q || likeCI (some r.path) q ||
    likeCI r.cameraMake q || likeCI r.cameraModel q ||
    likeCI r.iptcKeywords q || likeCI r.iptcCaption q ||
    likeCI r.xmpKeywords q || likeCI r.xmpTitle q ||
    likeCI r.matchReasons q).take limit

/-- `search_images` on the transient backend:
`if not (self.use_database and self.db_manager): return pd.DataFrame()` —
every search returns the empty frame. -/
def searchImagesLegacy (_q : String) (_limit : Nat) : List DbRow := []

/-- `data_manager.DataManager.validate_file_paths`: recompute `FileExists`
for every row of `self.df` and rebuild `missing_files` from scratch. -/
def dmValidatePaths (fs : String → Bool) (recs : List Rec) : List Rec × List String :=
  (recs.map fun r => { r with fileExists := dmCheckS fs r.path },
   addMissingAll [] ((recs.filter fun r => !(dmCheckS fs r.path)).map fun r => r.path))

/-- The legacy branch of the enhanced manager's `validate_file_paths`. -/
def dmlValidatePaths (fs : String → Bool) (recs : List Rec) : List Rec × List String :=
  (recs.map fun r => { r with fileExists := dmlCheckS fs r.path },
   addMissingAll [] ((recs.filter fun r => !(dmlCheckS fs r.path)).map fun r => r.path))

/-- `DatabaseManager.validate_file_paths`: one `UPDATE images SET
file_exists = ? WHERE id = ?` per row, from the stored `path`. -/
def dbValidatePaths (fs : String → Bool) (imgs : List DbRow) : List DbRow :=
  imgs.map fun r => { r with fileExists := dbCheckO fs (some r.path) }

/-- A raw Python value in a `Path` cell: `None`/`NaN` (both `pd.isna`), a
non-`NaN` number, or a string. -/
inductive PVal where
  | pnone
  | pnum (q : Rat)
  | pstr (s : String)
deriving DecidableEq

/-- `data_manager.DataManager._check_file_exists` on a raw cell value:
no guard and no `try`, so `Path(None)` / `Path(float)` raise `TypeError`
(modelled by `Except.error`); a failing stat adds the path to the
manager's `missing_files` set. -/
def dmCheckV (fs : String → Bool) (missing : List String) :
    PVal → Except Unit (Bool × List String)
  | .pnone => .error ()
  | .pnum _ => .error ()
  | .pstr s =>
    if fs s then .ok (true, missing)
    else .ok (false, if s ∈ missing then missing else missing ++ [s])

/-- `data_manager_enhanced.DataManager._check_file_exists` on a raw cell:
the `not file_path or pd.isna(file_path)` guard catches `None`/`NaN` and
the empty string, but a non-`NaN` number passes it and `Path(float)`
raises; a failing stat adds to `missing_files`. -/
def dmlCheckV (fs : String → Bool) (missing : List String) :
    PVal → Except Unit (Bool × List String)
  | .pnone => .ok (false, missing)
  | .pnum _ => .error ()
  | .pstr s =>
    if s = "" then .ok (false, missing)
    else if fs s then .ok (true, missing)
    else .ok (false, if s ∈ missing then missing else missing ++ [s])

/-- `DatabaseManager._check_file_exists` on a raw cell: the same guard plus
a `try/except` that turns any `Path` failure into `False`; no state is
touched. -/
def dbCheckV (fs : String → Bool) : PVal → Except Unit Bool
  | .pnone => .ok false
  | .pnum _ => .ok false
  | .pstr s => .ok (if s = "" then false else fs s)

/-- The on-disk facts `migration_utility` consults: whether the durable
store file and the report file exist. -/
structure FsWorld where
  dbFile : Bool
  csvFile : Bool
deriving DecidableEq

/-- `MigrationUtility.__init__` constructs `DatabaseManager(database_path)`
with `auto_connect=True`; `sqlite3.connect` creates the store file (and
`_create_tables` commits the schema), so after construction the store file
exists on disk. -/
def migrationUtilityInit (w : FsWorld) : FsWorld :=
  { w with dbFile := true }

/-- `MigrationUtility.migrate_csv_to_database`: missing report → `False`;
store file present and not `force` → `False` with nothing touched;
otherwise (unlink under `force` and) import, reporting success. -/
def migrateCsvToDatabase (w : FsWorld) (force : Bool) : FsWorld × Bool :=
  if !w.csvFile then (w, false)
  else if w.dbFile && !force then (w, false)
  else ({ w with dbFile := true }, true)

/-! ### Projections and concrete inputs -/

/-- Every field of a `Rec` other than `isMaster`. -/
def projNM (r : Rec) : String × String × String × Option Rat × Option String × Bool :=
  (r.groupId, r.file, r.path, r.quality, r.matchReasons, r.fileExists)

/-- Every field of a `Rec` other than `fileExists`. -/
def projNE (r : Rec) : String × Bool × String × String × Option Rat × Option String :=
  (r.groupId, r.isMaster, r.file, r.path, r.quality, r.matchReasons)

/-- Every field of a `DbRow` other than `fileExists`. -/
def projDbNE (r : DbRow) :
    String × Bool × String × Option String × String × Option Rat ×
      Option String × Option String × Option String × Option String ×
      Option String × Option String × Option String :=
  (r.groupId, r.isMaster, r.file, r.name, r.path, r.quality, r.cameraMake,
   r.cameraModel, r.iptcKeywords, r.iptcCaption, r.xmpKeywords, r.xmpTitle,
   r.matchReasons)

/-- The legacy record produced from a raw row all of whose critical cells
are present (the closed form `processRows` takes on such rows). -/
def legacyRecOf (check : String → Bool) (r : Row) : Rec :=
  { groupId := r.groupId.getD "nan", isMaster := coerceMaster r.master,
    file := r.file.getD "", path := r.path.getD "",
    quality := r.quality, matchReasons := r.matchReasons,
    fileExists := check (r.path.getD "") }

/-- The rational 8.5 of the spec's two-row scenario. -/
def q85 : Rat := ⟨17, 2, by decide, by decide⟩

/-- The rational 9.2 of the spec's two-row scenario. -/
def q92 : Rat := ⟨46, 5, by decide, by decide⟩

/-- Scenario row `a.jpg` (quality 8.5 = 17/2), after processing. -/
def recA : Rec :=
  { groupId := "1", isMaster := false, file := "a.jpg", path := "/x/a.jpg",
    quality := some q85, matchReasons := none, fileExists := false }

/-- Scenario row `b.jpg` (quality 9.2 = 46/5), after processing. -/
def recB : Rec :=
  { groupId := "1", isMaster := false, file := "b.jpg", path := "/x/b.jpg",
    quality := some q92, matchReasons := none, fileExists := false }

/-- Scenario row `c.jpg`, flagged master, quality 1. -/
def recC : Rec :=
  { groupId := "1", isMaster := true, file := "c.jpg", path := "/x/c.jpg",
    quality := some 1, matchReasons := none, fileExists := false }

/-- A report row with the four mandatory cells set and all optional cells
absent. -/
def mkRow (gid m f p : String) : Row :=
  { groupId := some gid, master := some m, file := some f, path := some p }

/-- A first report for the basic backend: one row, one group. -/
def c3csv1 : Csv :=
  { cols := ["GroupID", "Master", "File", "Path", "MatchReasons"],
    rows := [mkRow "1" "yes" "a.jpg" "/x/a.jpg"] }

/-- A second report with two rows whose `Master` column is missing, so its
load fails schema validation. -/
def c3csv2 : Csv :=
  { cols := ["GroupID", "File", "Path", "MatchReasons"],
    rows := [mkRow "1" "" "b.jpg" "/x/b.jpg", mkRow "1" "" "c.jpg" "/x/c.jpg"] }

/-- State of the basic manager after successfully loading `c3csv1` on an
all-missing filesystem. -/
def c3st0 : DmState := (dmLoadCsv (fun _ => false) dmInit c3csv1).1

/-- State of the basic manager after the failed load of `c3csv2`. -/
def c3st1 : DmState := (dmLoadCsv (fun _ => false) c3st0 c3csv2).1

/-- A stored durable row used as pre-existing content by the C3 witness. -/
def c3dbRow : DbRow :=
  dbRowOf ["GroupID", "Master", "File", "Path"] (fun _ => false) (mkRow "1" "" "a.jpg" "/x/a.jpg")

/-- A report whose two rows share one missing path — the input separating
the two backends' summaries and searches. -/
def c2csv : Csv :=
  { cols := ["GroupID", "Master", "File", "Path"],
    rows := [mkRow "1" "yes" "x1.jpg" "/m/x.jpg", mkRow "1" "" "x2.jpg" "/m/x.jpg"] }

/-! ### Helper lemmas -/

theorem lexLeB_total (r1 r2 : Nat) (t1 t2 : Bool) (h : t1 = true ∨ t2 = true) :
    lexLeB r1 r2 t1 = true ∨ lexLeB r2 r1 t2 = true := by
  unfold lexLeB
  rcases Nat.lt_trichotomy r1 r2 with hlt | heq | hgt
  · left; simp [hlt]
  · subst heq
    rcases h with h | h
    · left; simp [h]
    · right; simp [h]
  · right; simp [hgt]

theorem lexLeB_trans {r1 r2 r3 : Nat} {t12 t23 t13 : Bool}
    (h : t12 = true → t23 = true → t13 = true)
    (h12 : lexLeB r1 r2 t12 = true) (h23 : lexLeB r2 r3 t23 = true) :
    lexLeB r1 r3 t13 = true := by
  unfold lexLeB at *
  simp only [Bool.or_eq_true, Bool.and_eq_true, decide_eq_true_eq, beq_iff_eq] at *
  rcases h12 with h12 | ⟨e12, ht12⟩
  · rcases h23 with h23 | ⟨e23, _⟩
    · left; omega
    · left; omega
  · rcases h23 with h23 | ⟨e23, ht23⟩
    · left; omega
    · right; exact ⟨by omega, h ht12 ht23⟩

theorem qleB_refl (x : Option Rat) : qleB x x = true := by
  cases x <;> simp [qleB]

theorem qleB_total (x y : Option Rat) : qleB x y = true ∨ qleB y x = true := by
  cases x <;> cases y <;> simp [qleB]
  exact le_total _ _

theorem qleB_trans {x y z : Option Rat} (h1 : qleB x y = true) (h2 : qleB y z = true) :
    qleB x z = true := by
  cases x <;> cases y <;> cases z <;> simp_all [qleB]
  exact le_trans h1 h2

theorem qleB_of_not {x y : Option Rat} (h : qleB x y = false) : qleB y x = true := by
  rcases qleB_total x y with h1 | h1
  · rw [h1] at h; cases h
  · exact h1

theorem charListLe_total : ∀ l1 l2 : List Char, charListLe l1 l2 = true ∨ charListLe l2 l1 = true := by
  intro l1
  induction l1 with
  | nil => intro l2; left; cases l2 <;> rfl
  | cons a as ih =>
    intro l2
    cases l2 with
    | nil => right; rfl
    | cons b bs =>
      rcases lt_trichotomy a b with h | h | h
      · left; simp [charListLe, h]
      · subst h
        rcases ih bs with h2 | h2
        · left; simp [charListLe, h2]
        · right; simp [charListLe, h2]
      · right; simp [charListLe, h]

theorem charListLe_trans :
    ∀ {l1 l2 l3 : List Char}, charListLe l1 l2 = true → charListLe l2 l3 = true →
      charListLe l1 l3 = true := by
  intro l1
  induction l1 with
  | nil => intro l2 l3 _ _; cases l3 <;> rfl
  | cons a as ih =>
    intro l2 l3 h12 h23
    cases l2 with
    | nil => cases h12
    | cons b bs =>
      cases l3 with
      | nil => cases h23
      | cons c cs =>
        simp only [charListLe] at h12 h23 ⊢
        by_cases hab : a < b
        · by_cases hbc : b < c
          · simp [lt_trans hab hbc]
          · by_cases hcb : c < b
            · rw [if_neg hbc, if_pos hcb] at h23
              cases h23
            · have : b = c := le_antisymm (not_lt.mp hcb) (not_lt.mp hbc)
              subst this
              simp [hab]
        · by_cases hba : b < a
          · simp [if_neg hab, if_pos hba] at h12
          · have : a = b := le_antisymm (not_lt.mp hba) (not_lt.mp hab)
            subst this
            rw [if_neg (lt_irrefl a), if_neg (lt_irrefl a)] at h12
            by_cases hac : a < c
            · simp [hac]
            · by_cases hca : c < a
              · simp [if_neg hac, if_pos hca] at h23
              · rw [if_neg hac, if_neg hca] at h23 ⊢
                exact ih h12 h23

instance : IsTotal String strLe :=
  ⟨fun a b => charListLe_total a.data b.data⟩

instance : IsTrans String strLe :=
  ⟨fun _ _ _ hab hbc => charListLe_trans hab hbc⟩

instance : IsTotal Rec dmLe :=
  ⟨fun a b => lexLeB_total _ _ _ _ (charListLe_total a.file.data b.file.data)⟩

instance : IsTrans Rec dmLe :=
  ⟨fun _ _ _ hab hbc => lexLeB_trans (fun h1 h2 => charListLe_trans h1 h2) hab hbc⟩

instance : IsTotal Rec dmlLe :=
  ⟨fun a b => lexLeB_total _ _ _ _ (qleB_total b.quality a.quality)⟩

instance : IsTrans Rec dmlLe :=
  ⟨fun _ _ _ hab hbc => lexLeB_trans (fun h1 h2 => qleB_trans h2 h1) hab hbc⟩

instance : IsTotal DbRow dbLe :=
  ⟨fun a b => lexLeB_total _ _ _ _ (qleB_total b.quality a.quality)⟩

instance : IsTrans DbRow dbLe :=
  ⟨fun _ _ _ hab hbc => lexLeB_trans (fun h1 h2 => qleB_trans h2 h1) hab hbc⟩

theorem masterCount_cons (r : Rec) (rs : List Rec) :
    masterCount (r :: rs) = (if r.isMaster then 1 else 0) + masterCount rs := by
  unfold masterCount
  cases h : r.isMaster <;> simp [List.filter_cons, h, Nat.add_comm]

theorem masterCount_perm {l1 l2 : List Rec} (h : l1.Perm l2) :
    masterCount l1 = masterCount l2 := by
  unfold masterCount
  rw [← List.countP_eq_length_filter, ← List.countP_eq_length_filter]
  exact h.countP_eq _

theorem masterCount_eq_zero {l : List Rec} :
    masterCount l = 0 ↔ ∀ r ∈ l, r.isMaster = false := by
  unfold masterCount
  rw [← List.countP_eq_length_filter, List.countP_eq_zero]
  simp

theorem masterCount_setMasterAt {g : List Rec} (h0 : masterCount g = 0) :
    ∀ {i : Nat}, i < g.length → masterCount (setMasterAt g i) = 1 := by
  induction g with
  | nil => intro i hi; cases hi
  | cons r rs ih =>
    intro i hi
    have hr : r.isMaster = false := (masterCount_eq_zero.mp h0) r (by simp)
    have hrs : masterCount rs = 0 := by
      rw [masterCount_cons, hr] at h0; simpa using h0
    cases i with
    | zero =>
      simp only [setMasterAt, masterCount_cons]
      simpa using hrs
    | succ n =>
      simp only [setMasterAt, masterCount_cons, hr]
      have hn : n < rs.length := by simpa using hi
      simpa using ih hrs hn

theorem minPathLen_le {g : List Rec} : ∀ r ∈ g, minPathLen g ≤ r.path.length := by
  induction g with
  | nil => intro r hr; cases hr
  | cons a rs ih =>
    intro r hr
    cases rs with
    | nil =>
      rcases List.mem_cons.mp hr with h | h
      · subst h; simp [minPathLen]
      · cases h
    | cons b bs =>
      rcases List.mem_cons.mp hr with h | h
      · subst h; simp [minPathLen]
      · calc minPathLen (a :: b :: bs) ≤ minPathLen (b :: bs) := by
              simp [minPathLen]
          _ ≤ r.path.length := ih r h

theorem minPathLen_attained {g : List Rec} (h : g ≠ []) :
    ∃ r ∈ g, r.path.length = minPathLen g := by
  induction g with
  | nil => exact absurd rfl h
  | cons a rs ih =>
    cases rs with
    | nil => exact ⟨a, by simp, by simp [minPathLen]⟩
    | cons b bs =>
      rcases ih (by simp) with ⟨r, hr, hlen⟩
      by_cases hc : a.path.length ≤ minPathLen (b :: bs)
      · exact ⟨a, by simp, by simp [minPathLen, Nat.min_eq_left hc]⟩
      · refine ⟨r, List.mem_cons_of_mem a hr, ?_⟩
        have : minPathLen (a :: b :: bs) = minPathLen (b :: bs) := by
          simp only [minPathLen]
          omega
        rw [this, hlen]

theorem selMinPath_lt {g : List Rec} (h : g ≠ []) : selMinPath g < g.length := by
  rcases minPathLen_attained h with ⟨r, hr, hlen⟩
  exact List.findIdx_lt_length_of_exists ⟨r, hr, decide_eq_true hlen⟩

theorem le_maxQuality {g : List Rec} : ∀ r ∈ g, qleB r.quality (maxQuality g) = true := by
  induction g with
  | nil => intro r hr; cases hr
  | cons a rs ih =>
    intro r hr
    cases rs with
    | nil =>
      rcases List.mem_cons.mp hr with h | h
      · subst h; simp [maxQuality, qleB_refl]
      · cases h
    | cons b bs =>
      have step : qleB (maxQuality (b :: bs)) (maxQuality (a :: b :: bs)) = true ∧
          qleB a.quality (maxQuality (a :: b :: bs)) = true := by
        simp only [maxQuality]
        cases hc : qleB a.quality (maxQuality (b :: bs)) with
        | true => exact ⟨by simpa using qleB_refl _, by simpa using hc⟩
        | false => exact ⟨by simpa using qleB_of_not hc, by simpa using qleB_refl _⟩
      rcases List.mem_cons.mp hr with h | h
      · subst h; exact step.2
      · exact qleB_trans (ih r h) step.1

theorem maxQuality_attained {g : List Rec} (h : g ≠ []) :
    ∃ r ∈ g, r.quality = maxQuality g := by
  induction g with
  | nil => exact absurd rfl h
  | cons a rs ih =>
    cases rs with
    | nil => exact ⟨a, by simp, by simp [maxQuality]⟩
    | cons b bs =>
      by_cases hc : qleB a.quality (maxQuality (b :: bs)) = true
      · rcases ih (by simp) with ⟨r, hr, hq⟩
        refine ⟨r, List.mem_cons_of_mem a hr, ?_⟩
        simp only [maxQuality]
        rw [if_pos hc]
        exact hq
      · refine ⟨a, by simp, ?_⟩
        simp only [maxQuality]
        rw [if_neg hc]

theorem selQuality_lt {g : List Rec} (h : g ≠ []) : selQuality g < g.length := by
  rcases maxQuality_attained h with ⟨r, hr, hq⟩
  exact List.findIdx_lt_length_of_exists ⟨r, hr, decide_eq_true hq⟩

theorem mem_gidsOf {recs : List Rec} {gid : String} :
    gid ∈ gidsOf recs ↔ ∃ r ∈ recs, r.groupId = gid := by
  unfold gidsOf sortStr
  rw [(List.perm_insertionSort _ _).mem_iff, List.mem_dedup, List.mem_map]

theorem dfAfterAux_id (sel : List Rec → Nat) (full : List Rec) :
    ∀ (i : Nat) (l : List Rec),
      (∀ r ∈ l, masterCount (groupRows full r.groupId) ≠ 0) →
      dfAfterAux sel full i l = l := by
  intro i l
  induction l generalizing i with
  | nil => intro _; rfl
  | cons r rs ih =>
    intro h
    have hr : masterCount (groupRows full r.groupId) ≠ 0 := h r (by simp)
    simp only [dfAfterAux]
    rw [if_neg (by intro hc; exact hr hc.1)]
    rw [ih (i + 1) fun x hx => h x (List.mem_cons_of_mem r hx)]

theorem dfAfterAux_projNM (sel : List Rec → Nat) (full : List Rec) :
    ∀ (i : Nat) (l : List Rec),
      (dfAfterAux sel full i l).map projNM = l.map projNM := by
  intro i l
  induction l generalizing i with
  | nil => rfl
  | cons r rs ih =>
    simp only [dfAfterAux, List.map_cons]
    rw [ih (i + 1)]
    split <;> rfl

theorem length_of_map_projNM {l1 l2 : List Rec} (h : l1.map projNM = l2.map projNM) :
    l1.length = l2.length := by
  have := congrArg List.length h
  simpa using this

theorem countP_of_map_projNM {l1 l2 : List Rec}
    (h : l1.map projNM = l2.map projNM)
    (p : String × String × String × Option Rat × Option String × Bool → Bool) :
    l1.countP (fun r => p (projNM r)) = l2.countP (fun r => p (projNM r)) := by
  have e1 : l1.countP (fun r => p (projNM r)) = (l1.map projNM).countP p :=
    (List.countP_map p projNM l1).symm
  have e2 : l2.countP (fun r => p (projNM r)) = (l2.map projNM).countP p :=
    (List.countP_map p projNM l2).symm
  rw [e1, e2, h]

theorem mem_addMissingAll {x : String} :
    ∀ (ps s : List String), x ∈ addMissingAll s ps ↔ x ∈ s ∨ x ∈ ps := by
  intro ps
  induction ps with
  | nil => intro s; simp [addMissingAll]
  | cons p ps ih =>
    intro s
    show x ∈ addMissingAll (if p ∈ s then s else s ++ [p]) ps ↔ _
    rw [ih]
    by_cases hp : p ∈ s
    · rw [if_pos hp]
      constructor
      · rintro (h | h)
        · exact Or.inl h
        · exact Or.inr (List.mem_cons_of_mem p h)
      · rintro (h | h)
        · exact Or.inl h
        · rcases List.mem_cons.mp h with rfl | h
          · exact Or.inl hp
          · exact Or.inr h
    · rw [if_neg hp]
      simp only [List.mem_append, List.mem_singleton, List.mem_cons]
      tauto

theorem nodup_addMissingAll :
    ∀ (ps s : List String), s.Nodup → (addMissingAll s ps).Nodup := by
  intro ps
  induction ps with
  | nil => intro s hs; exact hs
  | cons p ps ih =>
    intro s hs
    show (addMissingAll (if p ∈ s then s else s ++ [p]) ps).Nodup
    by_cases hp : p ∈ s
    · rw [if_pos hp]; exact ih s hs
    · rw [if_neg hp]
      refine ih _ ?_
      simp [List.nodup_append, hs, hp]

theorem length_addMissingAll_nil (ps : List String) :
    (addMissingAll [] ps).length = ps.dedup.length := by
  have h1 : (addMissingAll [] ps).Nodup := nodup_addMissingAll ps [] List.nodup_nil
  have h2 : ps.dedup.Nodup := List.nodup_dedup ps
  have hset : (addMissingAll [] ps).toFinset = ps.dedup.toFinset := by
    ext x
    rw [List.mem_toFinset, List.mem_toFinset, mem_addMissingAll, List.mem_dedup]
    simp
  rw [← List.toFinset_card_of_nodup h1, ← List.toFinset_card_of_nodup h2, hset]

theorem dedup_length_lt {α : Type} [DecidableEq α] {l : List α} (h : ¬ l.Nodup) :
    l.dedup.length < l.length := by
  have hs := List.dedup_sublist l
  rcases Nat.lt_or_ge l.dedup.length l.length with hlt | hge
  · exact hlt
  · exfalso
    have heq : l.dedup.length = l.length := le_antisymm hs.length_le hge
    have : l.dedup = l := hs.eq_of_length heq
    exact h (this ▸ List.nodup_dedup l)

theorem groupRows_ne_nil {recs : List Rec} {gid : String} (h : gid ∈ gidsOf recs) :
    groupRows recs gid ≠ [] := by
  rcases mem_gidsOf.mp h with ⟨r, hr, rfl⟩
  have : r ∈ groupRows recs r.groupId := by
    unfold groupRows
    exact List.mem_filter.mpr ⟨hr, by simp⟩
  exact List.ne_nil_of_mem this

theorem filter_length_split {α : Type} (p : α → Bool) (l : List α) :
    (l.filter p).length + (l.filter fun a => !p a).length = l.length := by
  induction l with
  | nil => rfl
  | cons a l ih =>
    cases h : p a <;> simp [List.filter_cons, h, ← ih] <;> omega

theorem processRows_eq_map (check : String → Bool) :
    ∀ rows : List Row,
      (∀ r ∈ rows, r.groupId.isSome ∧ r.file.isSome ∧ r.path.isSome) →
      processRows check rows = rows.map (legacyRecOf check) := by
  intro rows
  induction rows with
  | nil => intro _; rfl
  | cons r rs ih =>
    intro h
    obtain ⟨hg, hf, hp⟩ := h r (by simp)
    rcases Option.isSome_iff_exists.mp hg with ⟨gg, hgg⟩
    rcases Option.isSome_iff_exists.mp hf with ⟨ff, hff⟩
    rcases Option.isSome_iff_exists.mp hp with ⟨pp, hpp⟩
    have ht := ih fun x hx => h x (List.mem_cons_of_mem r hx)
    simp only [processRows, List.filterMap_cons, hgg, hff, hpp, List.map_cons] at ht ⊢
    rw [ht]
    congr 1
    simp [legacyRecOf, hgg, hff, hpp]

/-! ### Claims -/

/-- C6, counterexample: an input that has all four mandatory columns
(`GroupID`, `Master`, `File`, `Path`) but no `MatchReasons` column is
rejected by the basic backend's `load_csv`, although the claim says absence
of an optional extended column never causes ingestion to fail. -/
theorem C6_counterexample :
    (∀ c ∈ dmlRequired, c ∈ (["GroupID", "Master", "File", "Path"] : List String)) ∧
    (dmLoadCsv (fun _ => false) dmInit
      { cols := ["GroupID", "Master", "File", "Path"], rows := [] }).2 = false := by
  constructor
  · decide
  · rfl

/-- C6, amended: the enhanced legacy loader and the durable backend accept
an input iff the four mandatory columns are all present (and the legacy
loader's missing-column error occurs exactly then), but the basic
`data_manager` backend additionally requires the `MatchReasons` column. -/
theorem C6_amended :
    ∀ cols : List String,
      (missingColumns dmlRequired cols = [] ↔
        ("GroupID" ∈ cols ∧ "Master" ∈ cols ∧ "File" ∈ cols ∧ "Path" ∈ cols)) ∧
      (missingColumns dbRequired cols = [] ↔
        ("GroupID" ∈ cols ∧ "Master" ∈ cols ∧ "File" ∈ cols ∧ "Path" ∈ cols)) ∧
      (missingColumns dmRequired cols = [] ↔
        ("GroupID" ∈ cols ∧ "Master" ∈ cols ∧ "File" ∈ cols ∧ "Path" ∈ cols ∧
          "MatchReasons" ∈ cols)) ∧
      (∀ (fs : String → Bool) (c : Csv),
        dmlLoadCsv fs c = .error "Missing required columns" ↔
          missingColumns dmlRequired c.cols ≠ []) := by
  intro cols
  refine ⟨?_, ?_, ?_, ?_⟩
  · simp [missingColumns, dmlRequired, List.filter_eq_nil_iff]
  · simp [missingColumns, dbRequired, List.filter_eq_nil_iff]
  · simp [missingColumns, dmRequired, List.filter_eq_nil_iff]
  · intro fs c
    by_cases h : missingColumns dmlRequired c.cols = []
    · simp only [dmlLoadCsv]
      rw [if_neg (not_not_intro h)]
      simp only [h, ne_eq, not_true_eq_false, iff_false]
      split
      · simp
      · simp only [Except.error.injEq]
        decide
    · simp only [dmlLoadCsv]
      rw [if_pos h]
      simp [h]

/-- C7: on all three backends revalidation recomputes `fileExists` for every
stored record from the stored path, and every other field of every record
is unchanged (hence group membership and master assignment are unchanged). -/
theorem C7_revalidate_frame (fs : String → Bool) (recs : List Rec) (imgs : List DbRow) :
    (dmValidatePaths fs recs).1.map projNE = recs.map projNE ∧
    (dmValidatePaths fs recs).1.map (fun r => r.fileExists) =
      recs.map (fun r => dmCheckS fs r.path) ∧
    (dmlValidatePaths fs recs).1.map projNE = recs.map projNE ∧
    (dmlValidatePaths fs recs).1.map (fun r => r.fileExists) =
      recs.map (fun r => dmlCheckS fs r.path) ∧
    (dbValidatePaths fs imgs).map projDbNE = imgs.map projDbNE ∧
    (dbValidatePaths fs imgs).map (fun r => r.fileExists) =
      imgs.map (fun r => dbCheckO fs (some r.path)) := by
  refine ⟨?_, ?_, ?_, ?_, ?_, ?_⟩ <;>
    (dsimp only [dmValidatePaths, dmlValidatePaths, dbValidatePaths]
     rw [List.map_map]
     exact rfl)

/-- C8, counterexample: the basic backend's existence checker raises
`TypeError` on a `None`/`NaN` path cell, and both pandas checkers raise it
on a numeric path cell — contradicting "returns a boolean and never throws
for every input value". -/
theorem C8_counterexample :
    dmCheckV (fun _ => false) [] PVal.pnone = .error () ∧
    dmCheckV (fun _ => false) [] (PVal.pnum 2) = .error () ∧
    dmlCheckV (fun _ => false) [] (PVal.pnum 2) = .error () := by
  exact ⟨rfl, rfl, rfl⟩

/-- C8, amended: the durable backend's checker satisfies the contract — it
always returns a boolean (`None`/`NaN`, numbers and the empty string give
`false`, a nonempty string gives the stat result) and mutates nothing — but
the pandas checkers throw on non-string values and record failing paths in
the manager's `missing_files` set. -/
theorem C8_amended :
    ∀ fs : String → Bool,
      (∀ v : PVal, ∃ b, dbCheckV fs v = .ok b) ∧
      dbCheckV fs PVal.pnone = .ok false ∧
      (∀ q : Rat, dbCheckV fs (PVal.pnum q) = .ok false) ∧
      dbCheckV fs (PVal.pstr "") = .ok false ∧
      (∀ s : String, s ≠ "" → dbCheckV fs (PVal.pstr s) = .ok (fs s)) ∧
      (∀ (s : String) (missing : List String), s ≠ "" → fs s = false →
        dmlCheckV fs missing (PVal.pstr s) =
          .ok (false, if s ∈ missing then missing else missing ++ [s])) := by
  intro fs
  refine ⟨?_, rfl, fun q => rfl, by simp [dbCheckV], ?_, ?_⟩
  · intro v
    cases v with
    | pnone => exact ⟨false, rfl⟩
    | pnum q => exact ⟨false, rfl⟩
    | pstr s => exact ⟨_, rfl⟩
  · intro s hs
    simp [dbCheckV, hs]
  · intro s missing hs hfs
    simp [dmlCheckV, hs, hfs]

/-- C8, witness for the amended claim at a concrete nonempty path on an
all-missing filesystem. -/
theorem C8_amended_witness :
    dbCheckV (fun _ => false) (PVal.pstr "p") = .ok false ∧
    dmlCheckV (fun _ => false) [] (PVal.pstr "p") = .ok (false, ["p"]) := by
  constructor
  · have h := (C8_amended (fun _ => false)).2.2.2.2.1 "p" (by decide)
    simpa using h
  · have h := (C8_amended (fun _ => false)).2.2.2.2.2 "p" [] (by decide) rfl
    simpa using h

/-- C3, counterexample: the basic transient backend assigns the newly read
frame to `self.df` before validating the schema, so the failed load of
`c3csv2` leaves a observable mix: `self.df` is the new two-row raw frame
while `self.groups` still holds the old catalog — the prior state is not
left intact. -/
theorem C3_counterexample :
    (dmLoadCsv (fun _ => false) c3st0 c3csv2).2 = false ∧
    c3st1.groups = c3st0.groups ∧
    c3st1.df = some (DfVal.raw c3csv2) ∧
    Option.map dfLen c3st0.df = some 1 ∧
    Option.map dfLen c3st1.df = some 2 := by
  decide

/-- C3, amended: for the durable backend a load that fails schema
validation leaves the prior catalog untouched (the check precedes the
destructive clear), and a load that passes validation replaces the content
entirely with the new rows; the transient backend does not enjoy the
first property (its `self.df` is overwritten before validation). -/
theorem C3_amended (fs : String → Bool) (st : List DbRow) (c : Csv) :
    (missingColumns dbRequired c.cols ≠ [] → dbImportCsv fs st c = (st, false)) ∧
    (missingColumns dbRequired c.cols = [] →
      dbImportCsv fs st c = (c.rows.map (dbRowOf c.cols fs), true)) := by
  constructor
  · intro h
    simp only [dbImportCsv]
    rw [if_pos h]
  · intro h
    simp only [dbImportCsv]
    rw [if_neg (not_not_intro h)]

/-- C3, witness: a schema-failing import against a nonempty durable store
leaves the store unchanged. -/
theorem C3_amended_witness :
    dbImportCsv (fun _ => false) [c3dbRow] { cols := ["GroupID"], rows := [] }
      = ([c3dbRow], false) := by
  exact (C3_amended (fun _ => false) [c3dbRow] { cols := ["GroupID"], rows := [] }).1 (by decide)

/-- C10: in the basic pandas backend, `missing_images` counts distinct
missing paths (the `missing_files` set) while `existing_images` counts
records, so whenever two records share a missing path the sum
`existing_images + missing_images` is strictly below `total_images`. -/
theorem C10_missing_counted_once (fs : String → Bool) (c : Csv)
    (hschema : missingColumns dmRequired c.cols = [])
    (hdup : ¬ (dmMissingRaw (processRows (dmCheckS fs) c.rows)).Nodup) :
    ∃ s, dmOverallSummary (dmLoadCsv fs dmInit c).1 = some s ∧
      s.missing_images = (dmMissingRaw (processRows (dmCheckS fs) c.rows)).dedup.length ∧
      s.existing_images + s.missing_images < s.total_images := by
  have hcond : ¬ (missingColumns dmRequired c.cols ≠ []) := not_not_intro hschema
  simp only [dmLoadCsv, dmInit]
  rw [if_neg hcond]
  simp only [dmOverallSummary]
  refine ⟨_, rfl, ?_, ?_⟩
  · exact length_addMissingAll_nil _
  · show ((dmDfAfter (processRows (dmCheckS fs) c.rows)).filter fun r => r.fileExists).length
        + (addMissingAll [] (dmMissingRaw (processRows (dmCheckS fs) c.rows))).length
      < (dmDfAfter (processRows (dmCheckS fs) c.rows)).length
    have hproj := dfAfterAux_projNM selMinPath (processRows (dmCheckS fs) c.rows) 0
      (processRows (dmCheckS fs) c.rows)
    have hlen : (dmDfAfter (processRows (dmCheckS fs) c.rows)).length
        = (processRows (dmCheckS fs) c.rows).length := length_of_map_projNM hproj
    have hex : ((dmDfAfter (processRows (dmCheckS fs) c.rows)).filter fun r => r.fileExists).length
        = ((processRows (dmCheckS fs) c.rows).filter fun r => r.fileExists).length := by
      rw [← List.countP_eq_length_filter, ← List.countP_eq_length_filter]
      exact countP_of_map_projNM hproj fun t => t.2.2.2.2.2
    have hsplit := filter_length_split (fun r => r.fileExists) (processRows (dmCheckS fs) c.rows)
    have hraw : (dmMissingRaw (processRows (dmCheckS fs) c.rows)).length
        = ((processRows (dmCheckS fs) c.rows).filter fun r => !r.fileExists).length := by
      simp [dmMissingRaw]
    have hlt : (dmMissingRaw (processRows (dmCheckS fs) c.rows)).dedup.length
        < ((processRows (dmCheckS fs) c.rows).filter fun r => !r.fileExists).length := by
      rw [← hraw]
      exact dedup_length_lt hdup
    rw [length_addMissingAll_nil, hlen, hex]
    omega

/-- C10, witness: a fresh load of a two-row report whose rows share one
missing path yields `existing_images = 0`, `missing_images = 1`,
`total_images = 2`. -/
theorem C10_missing_counted_once_witness :
    ∃ s, dmOverallSummary (dmLoadCsv (fun _ => false) dmInit
        { cols := ["GroupID", "Master", "File", "Path", "MatchReasons"],
          rows := [mkRow "1" "yes" "a.jpg" "/m/x.jpg", mkRow "1" "" "b.jpg" "/m/x.jpg"] }).1
      = some s ∧
      s.missing_images = (dmMissingRaw (processRows (dmCheckS fun _ => false)
        [mkRow "1" "yes" "a.jpg" "/m/x.jpg", mkRow "1" "" "b.jpg" "/m/x.jpg"])).dedup.length ∧
      s.existing_images + s.missing_images < s.total_images := by
  exact C10_missing_counted_once (fun _ => false)
    { cols := ["GroupID", "Master", "File", "Path", "MatchReasons"],
      rows := [mkRow "1" "yes" "a.jpg" "/m/x.jpg", mkRow "1" "" "b.jpg" "/m/x.jpg"] }
    (by decide) (by decide)

/-- C1, counterexample: (a) loading a two-row no-master group into the
durable backend leaves its `groups` roll-up with `master_count = 0` — the
durable backend never designates a master; (b) loading a two-row group
with both rows flagged master into the enhanced legacy backend leaves the
group with two masters.  Both refute "every group has exactly one member
with `isMaster = true` in either backend". -/
theorem C1_counterexample :
    (dbGroupsTable (dbImportCsv (fun _ => false) []
        { cols := ["GroupID", "Master", "File", "Path"],
          rows := [mkRow "1" "" "a.jpg" "/x/a.jpg", mkRow "1" "" "b.jpg" "/x/b.jpg"] }).1).map
        (fun g => (g.groupId, g.master_count)) = [("1", 0)] ∧
    (∃ out, dmlLoadCsv (fun _ => false)
        { cols := ["GroupID", "Master", "File", "Path"],
          rows := [mkRow "1" "yes" "a.jpg" "/x/a.jpg", mkRow "1" "yes" "b.jpg" "/x/b.jpg"] }
        = .ok out ∧
      out.groups.map (fun p => (p.1, masterCount p.2)) = [("1", 2)]) := by
  refine ⟨by decide, ⟨_, rfl, by decide⟩⟩

/-- C1, amended: in the basic transient backend, for any processed input in
which no group carries more than one flagged master, every group of the
built catalog has exactly one member with `isMaster = true` (one is
designated when none is flagged); the durable backend performs no
designation at all — each group's stored master count equals the number of
its input rows whose `Master` cell coerces to true. -/
theorem C1_amended (recs : List Rec)
    (h : ∀ r ∈ recs, masterCount (groupRows recs r.groupId) ≤ 1) :
    (∀ p ∈ dmGroups recs, masterCount p.2 = 1) ∧
    (∀ (fs : String → Bool) (c : Csv) (gid : String),
      (((c.rows.map (dbRowOf c.cols fs)).filter fun r => decide (r.groupId = gid)).filter
          (fun r => r.isMaster)).length
        = (c.rows.filter fun r =>
            coerceMaster r.master && decide (r.groupId.getD "nan" = gid)).length) := by
  constructor
  · intro p hp
    unfold dmGroups at hp
    rcases List.mem_map.mp hp with ⟨gid2, hgid2, heq⟩
    subst heq
    show masterCount (dmGroupOf recs gid2) = 1
    have hne : groupRows recs gid2 ≠ [] := groupRows_ne_nil hgid2
    unfold dmGroupOf
    rw [masterCount_perm (List.perm_insertionSort dmLe _)]
    by_cases h0 : masterCount (groupRows recs gid2) = 0
    · rw [if_pos h0]
      exact masterCount_setMasterAt h0 (selMinPath_lt hne)
    · rw [if_neg h0]
      rcases mem_gidsOf.mp hgid2 with ⟨r, hr, rfl⟩
      have hle := h r hr
      omega
  · intro fs c gid
    rw [List.filter_filter, List.filter_map, List.length_map]
    exact rfl

/-- C1, witness for the amended claim: the spec's two-row no-master group in
the basic backend ends with exactly one master. -/
theorem C1_amended_witness : masterCount (dmGroupOf [recA, recB] "1") = 1 :=
  (C1_amended [recA, recB] (by decide)).1 ("1", dmGroupOf [recA, recB] "1") (by decide)

/-- C4, counterexample: in `data_manager._create_groups` (one of the two
cited selection sites) the spec's two-row scenario with qualities 8.5 and
9.2 makes `a.jpg` the master — selection is by shortest path with
first-seen tie-break, quality is never consulted — contradicting "the 9.2
row (b.jpg) becomes master". -/
theorem C4_counterexample :
    dmGroupOf [recA, recB] "1" = [{ recA with isMaster := true }, recB] ∧
    recA.quality = some q85 ∧ recB.quality = some q92 ∧ q85 < q92 := by
  refine ⟨by decide, rfl, rfl, by decide⟩

/-- C4, amended: the basic backend always designates the first row of
minimal path length (quality is ignored); the enhanced legacy backend, when
the `QualityScore` column is present and some member has a score,
designates the first row attaining the maximal score (ties broken by
first-seen order, not by path length); in the two-row scenario the basic
backend makes `a.jpg` master and the enhanced backend makes `b.jpg`
master. -/
theorem C4_amended :
    (∀ (g : List Rec), g ≠ [] →
      ∃ hlt : selMinPath g < g.length,
        (g.get ⟨selMinPath g, hlt⟩).path.length = minPathLen g ∧
        (∀ r ∈ g, minPathLen g ≤ r.path.length) ∧
        (∀ (j : Nat) (hj : j < g.length), j < selMinPath g →
          (g.get ⟨j, hj⟩).path.length ≠ minPathLen g)) ∧
    (∀ (g : List Rec) (m : Rat), maxQuality g = some m →
      ∃ hlt : selQuality g < g.length,
        (g.get ⟨selQuality g, hlt⟩).quality = some m ∧
        (∀ r ∈ g, qleB r.quality (some m) = true) ∧
        (∀ (j : Nat) (hj : j < g.length), j < selQuality g →
          (g.get ⟨j, hj⟩).quality ≠ some m)) ∧
    dmGroupOf [recA, recB] "1" = [{ recA with isMaster := true }, recB] ∧
    dmlGroupOf true [recA, recB] "1" = [{ recB with isMaster := true }, recA] := by
  refine ⟨?_, ?_, by decide, by decide⟩
  · intro g hne
    refine ⟨selMinPath_lt hne, ?_, minPathLen_le, ?_⟩
    · have h := @List.findIdx_getElem _
        (fun (r : Rec) => decide (r.path.length = minPathLen g)) g (selMinPath_lt hne)
      exact of_decide_eq_true h
    · intro j hj hlt
      have h := @List.not_of_lt_findIdx _
        (fun (r : Rec) => decide (r.path.length = minPathLen g)) g j hlt
      intro hc
      rw [decide_eq_false_iff_not] at h
      exact h hc
  · intro g m hm
    have hne : g ≠ [] := by
      intro hnil
      rw [hnil] at hm
      cases hm
    have hself : selQuality g < g.length := by
      rcases maxQuality_attained hne with ⟨r, hr, hq⟩
      exact List.findIdx_lt_length_of_exists ⟨r, hr, decide_eq_true hq⟩
    refine ⟨hself, ?_, ?_, ?_⟩
    · have h := @List.findIdx_getElem _
        (fun (r : Rec) => decide (r.quality = maxQuality g)) g hself
      have h2 := of_decide_eq_true h
      exact h2.trans hm
    · intro r hr
      have h := le_maxQuality r hr
      rw [hm] at h
      exact h
    · intro j hj hlt
      have h := @List.not_of_lt_findIdx _
        (fun (r : Rec) => decide (r.quality = maxQuality g)) g j hlt
      rw [decide_eq_false_iff_not] at h
      exact fun hc => h (hc.trans hm.symm)

/-- C4, witness: the amended claim applied to the scenario group, whose
enhanced-backend selection index is row 1 (`b.jpg`, the 9.2 score). -/
theorem C4_amended_witness :
    selMinPath [recA, recB] = 0 ∧ selQuality [recA, recB] = 1 ∧
    minPathLen [recA, recB] = 8 ∧ maxQuality [recA, recB] = some q92 ∧
    ([recA, recB].get ⟨selMinPath [recA, recB], by decide⟩).path.length = minPathLen [recA, recB] ∧
    ([recA, recB].get ⟨selQuality [recA, recB], by decide⟩).quality = some q92 := by
  refine ⟨by decide, by decide, by decide, by decide, ?_, ?_⟩
  · rcases (C4_amended.1 [recA, recB] (by decide)) with ⟨hlt, hmin, _, _⟩
    exact hmin
  · rcases (C4_amended.2.1 [recA, recB] q92 (by decide)) with ⟨hlt, hq, _, _⟩
    exact hq

/-- C5, counterexample: with quality scores present (8.5 on `a.jpg`, 9.2 on
`b.jpg`, master `c.jpg`), the basic backend stores the group as
`[c, a, b]` — the remaining members are ordered by ascending file name,
not by descending quality score as the claim states. -/
theorem C5_counterexample :
    dmGroupOf [recC, recA, recB] "1" = [recC, recA, recB] ∧
    recA.quality = some q85 ∧ recB.quality = some q92 ∧ q85 < q92 := by
  refine ⟨by decide, rfl, rfl, by decide⟩

/-- C5, amended: each backend stores groups sorted by its own composite
key, master flag first in all of them: the basic backend then sorts by
ascending file name even when quality scores are present; the enhanced
legacy backend sorts by descending quality (absent scores last) exactly
when the `QualityScore` column exists, else by ascending file name; the
durable backend returns groups ordered by `is_master DESC,
quality_score DESC`.  On the scenario group the basic backend yields
`[c, a, b]` and the enhanced backend `[c, b, a]`. -/
theorem C5_amended :
    (∀ (recs : List Rec) (gid : String), (dmGroupOf recs gid).Sorted dmLe) ∧
    (∀ (recs : List Rec) (gid : String), (dmlGroupOf true recs gid).Sorted dmlLe) ∧
    (∀ (recs : List Rec) (gid : String), (dmlGroupOf false recs gid).Sorted dmLe) ∧
    (∀ (imgs : List DbRow) (gid : String), (dbGetGroupImages imgs gid).Sorted dbLe) ∧
    dmGroupOf [recC, recA, recB] "1" = [recC, recA, recB] ∧
    dmlGroupOf true [recC, recA, recB] "1" = [recC, recB, recA] := by
  refine ⟨?_, ?_, ?_, ?_, by decide, by decide⟩
  · intro recs gid
    exact List.sorted_insertionSort dmLe _
  · intro recs gid
    unfold dmlGroupOf
    rw [if_pos rfl]
    exact List.sorted_insertionSort dmlLe _
  · intro recs gid
    unfold dmlGroupOf
    rw [if_neg (by decide)]
    exact List.sorted_insertionSort dmLe _
  · intro imgs gid
    exact List.sorted_insertionSort dbLe _

/-- C2, counterexample: loading `c2csv` (two records sharing one missing
path) into both backends gives `missing_images = 1` from the transient
backend (distinct paths) but `missing_images = 2` from the durable backend
(missing records); and `search("x")` returns both records from the durable
backend while the transient backend's search always returns the empty
result — the summaries and the matched record sets are not equal. -/
theorem C2_counterexample :
    (∃ out, dmlLoadCsv (fun _ => false) c2csv = .ok out ∧
      (dmlOverallSummary out).missing_images = 1) ∧
    (dbOverallSummary (dbImportCsv (fun _ => false) [] c2csv).1).missing_images = 2 ∧
    searchImagesLegacy "x" 100 = [] ∧
    (dbSearchAll (dbImportCsv (fun _ => false) [] c2csv).1 "x" 100).length = 2 := by
  refine ⟨⟨_, rfl, by decide⟩, by decide, rfl, by decide⟩

/-- C2, amended: the two backends agree on `total_groups`, `total_images`,
`existing_images`, `missing_images` and the master count (under the key
renaming `total_masters`/`master_images`) for inputs in which every row
has its critical cells present, no path is the empty string, every group
has at least one flagged master, and no two records share a missing path;
`search` on the transient backend always returns the empty result, so
search equivalence fails except for queries with no durable matches. -/
theorem C2_amended (fs : String → Bool) (c : Csv)
    (hschema : missingColumns dmlRequired c.cols = [])
    (hcrit : ∀ r ∈ c.rows, r.groupId.isSome ∧ r.file.isSome ∧ r.path.isSome)
    (hpath : ∀ r ∈ c.rows, r.path ≠ some "")
    (hmaster : ∀ r ∈ processRows (dmlCheckS fs) c.rows,
      masterCount (groupRows (processRows (dmlCheckS fs) c.rows) r.groupId) ≠ 0)
    (hnodup : (dmlMissingRaw (processRows (dmlCheckS fs) c.rows)).Nodup) :
    ∃ out, dmlLoadCsv fs c = .ok out ∧
      (dmlOverallSummary out).total_groups
        = (dbOverallSummary (dbImportCsv fs [] c).1).total_groups ∧
      (dmlOverallSummary out).total_images
        = (dbOverallSummary (dbImportCsv fs [] c).1).total_images ∧
      (dmlOverallSummary out).existing_images
        = (dbOverallSummary (dbImportCsv fs [] c).1).existing_images ∧
      (dmlOverallSummary out).missing_images
        = (dbOverallSummary (dbImportCsv fs [] c).1).missing_images ∧
      (dmlOverallSummary out).total_masters
        = (dbOverallSummary (dbImportCsv fs [] c).1).master_images ∧
      (∀ (q : String) (lim : Nat), searchImagesLegacy q lim = []) := by
  have hmap : processRows (dmlCheckS fs) c.rows = c.rows.map (legacyRecOf (dmlCheckS fs)) :=
    processRows_eq_map _ _ hcrit
  have hdb : dbImportCsv fs [] c = (c.rows.map (dbRowOf c.cols fs), true) := by
    simp only [dbImportCsv]
    rw [if_neg (not_not_intro (show missingColumns dbRequired c.cols = [] from hschema))]
  -- pointwise facts relating the two stored record forms
  have hfe : ∀ r ∈ c.rows,
      (legacyRecOf (dmlCheckS fs) r).fileExists = (dbRowOf c.cols fs r).fileExists := by
    intro r hr
    obtain ⟨-, -, hp⟩ := hcrit r hr
    rcases Option.isSome_iff_exists.mp hp with ⟨pp, hpp⟩
    simp [legacyRecOf, dbRowOf, hpp, dmlCheckS, dbCheckO]
  have hpne : ∀ rec ∈ processRows (dmlCheckS fs) c.rows, rec.path ≠ "" := by
    rw [hmap]
    intro rec hrec
    rcases List.mem_map.mp hrec with ⟨r, hr, rfl⟩
    obtain ⟨-, -, hp⟩ := hcrit r hr
    rcases Option.isSome_iff_exists.mp hp with ⟨pp, hpp⟩
    have hne := hpath r hr
    simp only [legacyRecOf, hpp, Option.getD_some]
    intro hcc
    exact hne (by rw [hpp, hcc])
  -- counting bridges
  have hcount : ∀ p : Rec → Bool, ∀ pd : DbRow → Bool,
      (∀ r ∈ c.rows, p (legacyRecOf (dmlCheckS fs) r) = pd (dbRowOf c.cols fs r)) →
      (processRows (dmlCheckS fs) c.rows).countP p
        = (c.rows.map (dbRowOf c.cols fs)).countP pd := by
    intro p pd hpw
    rw [hmap, List.countP_map, List.countP_map]
    exact List.countP_congr fun r hr => by
      simp only [Function.comp_apply]
      rw [hpw r hr]
  -- the load succeeds
  have hok : dmlLoadOkB (decide ("QualityScore" ∈ c.cols))
      (processRows (dmlCheckS fs) c.rows) = true := by
    unfold dmlLoadOkB
    rw [List.all_eq_true]
    intro gid hgid
    rcases mem_gidsOf.mp hgid with ⟨r, hr, rfl⟩
    have hne := hmaster r hr
    have h0 : (masterCount (groupRows (processRows (dmlCheckS fs) c.rows) r.groupId) == 0)
        = false := by
      rw [beq_eq_false_iff_ne]
      exact hne
    rw [h0]
    rfl
  have hcond : ¬ (missingColumns dmlRequired c.cols ≠ []) := not_not_intro hschema
  simp only [dmlLoadCsv]
  rw [if_neg hcond, if_pos hok]
  refine ⟨_, rfl, ?_, ?_, ?_, ?_, ?_, fun q lim => rfl⟩
  -- the master-designation pass is the identity here
  all_goals
    have hdf2 : dmlDfAfter (decide ("QualityScore" ∈ c.cols))
        (processRows (dmlCheckS fs) c.rows) = processRows (dmlCheckS fs) c.rows :=
      dfAfterAux_id _ _ 0 _ hmaster
  · -- total_groups
    dsimp only [dmlOverallSummary, dbOverallSummary]
    rw [hdb]
    dsimp only [dbGroupsTable, dbGids]
    rw [List.length_map, List.length_map]
    unfold gidsOf sortStr
    rw [(List.perm_insertionSort strLe _).length_eq]
    rw [hmap, List.map_map, List.map_map]
    rfl
  · -- total_images
    dsimp only [dmlOverallSummary, dbOverallSummary]
    rw [hdb, hdf2, hmap]
    dsimp only
    rw [List.length_map, List.length_map]
  · -- existing_images
    dsimp only [dmlOverallSummary, dbOverallSummary]
    rw [hdb, hdf2]
    dsimp only
    have h1 := hcount (fun r => r.fileExists) (fun r => r.fileExists)
      (fun r hr => hfe r hr)
    have h2 := filter_length_split (fun r : DbRow => r.fileExists)
      (c.rows.map (dbRowOf c.cols fs))
    rw [← List.countP_eq_length_filter, ← List.countP_eq_length_filter] at *
    rw [h1]
    omega
  · -- missing_images
    dsimp only [dmlOverallSummary, dbOverallSummary]
    rw [hdb]
    dsimp only
    rw [length_addMissingAll_nil, List.dedup_eq_self.mpr hnodup]
    unfold dmlMissingRaw
    rw [List.length_map, ← List.countP_eq_length_filter, ← List.countP_eq_length_filter]
    have hsame : (processRows (dmlCheckS fs) c.rows).countP
          (fun r => !r.fileExists && !(decide (r.path = "")))
        = (processRows (dmlCheckS fs) c.rows).countP (fun r => !r.fileExists) := by
      refine List.countP_congr fun rec hrec => ?_
      have hne := hpne rec hrec
      simp [hne]
    rw [hsame]
    exact hcount (fun r => !r.fileExists) (fun r => !r.fileExists)
      (fun r hr => by dsimp only; rw [hfe r hr])
  · -- total_masters vs master_images
    dsimp only [dmlOverallSummary, dbOverallSummary]
    rw [hdb, hdf2]
    dsimp only
    unfold masterCount
    rw [← List.countP_eq_length_filter, ← List.countP_eq_length_filter]
    exact hcount (fun r => r.isMaster) (fun r => r.isMaster) (fun r hr => rfl)

/-- C2, witness for the amended claim: a two-group report with flagged
masters, distinct missing paths and nonempty cells yields equal summary
numbers from both backends. -/
theorem C2_amended_witness :
    ∃ out, dmlLoadCsv (fun _ => false)
        { cols := ["GroupID", "Master", "File", "Path"],
          rows := [mkRow "1" "yes" "a.jpg" "/x/a.jpg", mkRow "1" "" "b.jpg" "/x/b.jpg"] }
        = .ok out ∧
      (dmlOverallSummary out).total_groups
        = (dbOverallSummary (dbImportCsv (fun _ => false) []
            { cols := ["GroupID", "Master", "File", "Path"],
              rows := [mkRow "1" "yes" "a.jpg" "/x/a.jpg",
                       mkRow "1" "" "b.jpg" "/x/b.jpg"] }).1).total_groups ∧
      (dmlOverallSummary out).total_images
        = (dbOverallSummary (dbImportCsv (fun _ => false) []
            { cols := ["GroupID", "Master", "File", "Path"],
              rows := [mkRow "1" "yes" "a.jpg" "/x/a.jpg",
                       mkRow "1" "" "b.jpg" "/x/b.jpg"] }).1).total_images ∧
      (dmlOverallSummary out).existing_images
        = (dbOverallSummary (dbImportCsv (fun _ => false) []
            { cols := ["GroupID", "Master", "File", "Path"],
              rows := [mkRow "1" "yes" "a.jpg" "/x/a.jpg",
                       mkRow "1" "" "b.jpg" "/x/b.jpg"] }).1).existing_images ∧
      (dmlOverallSummary out).missing_images
        = (dbOverallSummary (dbImportCsv (fun _ => false) []
            { cols := ["GroupID", "Master", "File", "Path"],
              rows := [mkRow "1" "yes" "a.jpg" "/x/a.jpg",
                       mkRow "1" "" "b.jpg" "/x/b.jpg"] }).1).missing_images ∧
      (dmlOverallSummary out).total_masters
        = (dbOverallSummary (dbImportCsv (fun _ => false) []
            { cols := ["GroupID", "Master", "File", "Path"],
              rows := [mkRow "1" "yes" "a.jpg" "/x/a.jpg",
                       mkRow "1" "" "b.jpg" "/x/b.jpg"] }).1).master_images ∧
      (∀ (q : String) (lim : Nat), searchImagesLegacy q lim = []) :=
  C2_amended (fun _ => false)
    { cols := ["GroupID", "Master", "File", "Path"],
      rows := [mkRow "1" "yes" "a.jpg" "/x/a.jpg", mkRow "1" "" "b.jpg" "/x/b.jpg"] }
    (by decide) (by decide) (by decide) (by decide) (by decide)

/-- C9: evaluating the migration bridge at the failing input.  Starting
from a filesystem with no durable store, constructing `MigrationUtility`
already creates the store file (`auto_connect=True`), so a subsequent
`migrate(report, force=False)` returns failure even though no durable
store existed before the call — while `force=True` proceeds, and a
pre-existing store with `force=False` fails without overwriting, as the
claim requires. -/
theorem C9_migrate_eval :
    (migrateCsvToDatabase (migrationUtilityInit { dbFile := false, csvFile := true }) false).2
      = false ∧
    (migrateCsvToDatabase (migrationUtilityInit { dbFile := false, csvFile := true }) false).1
      = migrationUtilityInit { dbFile := false, csvFile := true } ∧
    (migrateCsvToDatabase (migrationUtilityInit { dbFile := false, csvFile := true }) true).2
      = true ∧
    (migrateCsvToDatabase { dbFile := true, csvFile := true } false)
      = ({ dbFile := true, csvFile := true }, false) := by
  exact ⟨rfl, rfl, rfl, rfl⟩

end Lineup
